import Mathlib

/-!
Verification development for the music core of the CoSecBot repository:
a shallow embedding of `src/music/models.py`, `src/music/queue.py`,
`src/music/permissions.py` and `src/music/player.py`, together with
theorems settling the specification claims about them.

Python mutable objects are embedded as immutable Lean structures with
explicit state passing; `datetime.now()` is an explicit `now : Nat`
argument; Discord voice transport objects are embedded as a small record
carrying the observable flags the code reads (`is_connected`,
`is_playing`, `is_paused`); the notification callbacks
(`on_track_start` etc.) are modelled as installed, appending to an
explicit event log.
-/

/-- `models.TrackSource` -/
inductive TrackSource
  | YOUTUBE
  | SPOTIFY
  | SEARCH
deriving DecidableEq, Repr

/-- `models.Track` -/
structure Track where
  title : String
  url : String
  duration : Nat
  thumbnail : Option String := none
  artist : Option String := none
  album : Option String := none
  source : TrackSource := TrackSource.YOUTUBE
  stream_url : Option String := none
deriving DecidableEq, Repr

/-- `models.QueueItem`; `added_at` is the `datetime.now()` default, passed explicitly. -/
structure QueueItem where
  track : Track
  requester_id : Nat
  requester_name : String
  added_at : Nat := 0
  position : Nat := 0
deriving DecidableEq, Repr

/-- Modelled from the spec: `player.py` imports `LoopMode` from `models.py`
but its definition is absent under `src/`; the spec fixes it as the
enum `{NONE, TRACK, QUEUE}`. -/
inductive LoopMode
  | NONE
  | TRACK
  | QUEUE
deriving DecidableEq, Repr

/-- `models.GuildMusicState`. The source default `loop_mode: bool = False`
is compared only against `LoopMode.TRACK` / `LoopMode.QUEUE` (both
comparisons fail), so it is embedded as `LoopMode.NONE`. -/
structure GuildMusicState where
  guild_id : Nat
  current_track : Option QueueItem := none
  is_playing : Bool := false
  is_paused : Bool := false
  volume : Nat := 50
  loop_mode : LoopMode := LoopMode.NONE
  last_activity : Nat := 0
  channel_owner_id : Option Nat := none
deriving DecidableEq, Repr

/-- A fresh `GuildMusicState(guild_id=gid)` created at time `now`. -/
def GuildMusicState.fresh (gid : Nat) (now : Nat) : GuildMusicState :=
  { guild_id := gid, last_activity := now }

/-- `queue.TrackQueue`: the deque `_queue`, `_max_size`, `_current`,
`_history`, `_history_limit`. -/
structure TrackQueue where
  queue : List QueueItem := []
  max_size : Nat := 100
  current : Option QueueItem := none
  history : List QueueItem := []
  history_limit : Nat := 10
deriving DecidableEq, Repr

namespace TrackQueue

/-- `TrackQueue.size` -/
def size (q : TrackQueue) : Nat := q.queue.length

/-- `TrackQueue.is_empty` -/
def is_empty (q : TrackQueue) : Bool := q.queue.length = 0

/-- `TrackQueue.is_full` -/
def is_full (q : TrackQueue) : Bool := q.queue.length ≥ q.max_size

/-- The `current` property setter: pushes the previous current into
`_history` only while the history holds fewer than `_history_limit`
items, then overwrites the pointer. -/
def set_current (q : TrackQueue) (item : Option QueueItem) : TrackQueue :=
  { q with
    history :=
      match q.current with
      | some c => if q.history.length < q.history_limit then q.history ++ [c] else q.history
      | none => q.history
    current := item }

/-- The `for i, item in enumerate(self._queue): item.position = start_pos + i`
loop of `_update_positions`, as a recursion over the queue. -/
def renumber (start_pos : Nat) : List QueueItem → List QueueItem
  | [] => []
  | item :: rest => { item with position := start_pos } :: renumber (start_pos + 1) rest

/-- `TrackQueue._update_positions` -/
def update_positions (q : TrackQueue) : TrackQueue :=
  let start_pos := if q.current.isSome then 2 else 1
  { q with queue := renumber start_pos q.queue }

/-- `TrackQueue.add` (returns the `Optional[QueueItem]` and the updated queue). -/
def add (q : TrackQueue) (track : Track) (requester_id : Nat) (requester_name : String)
    (now : Nat) : Option QueueItem × TrackQueue :=
  if q.is_full then (none, q)
  else
    let position := q.queue.length + 1 + (if q.current.isSome then 1 else 0)
    let item : QueueItem :=
      { track := track, requester_id := requester_id, requester_name := requester_name,
        added_at := now, position := position }
    (some item, { q with queue := q.queue ++ [item] })

/-- `TrackQueue.get_next`: pops the head and recomputes positions of the rest. -/
def get_next (q : TrackQueue) : Option QueueItem × TrackQueue :=
  match q.queue with
  | [] => (none, q)
  | item :: rest => (some item, update_positions { q with queue := rest })

/-- `TrackQueue.peek_next` -/
def peek_next (q : TrackQueue) : Option QueueItem := q.queue.head?

/-- `TrackQueue.remove_at`: maps the 1-based displayed position to an
internal index (offset by 1 when `current` is set), removes, recomputes. -/
def remove_at (q : TrackQueue) (position : Int) : Option QueueItem × TrackQueue :=
  let queue_index : Int := if q.current.isSome then position - 2 else position - 1
  if queue_index < 0 ∨ (q.queue.length : Int) ≤ queue_index then (none, q)
  else
    let i := queue_index.toNat
    (q.queue[i]?, update_positions { q with queue := q.queue.take i ++ q.queue.drop (i + 1) })

/-- `TrackQueue.clear`: drops the queued items and `current`; `_history` untouched. -/
def clear (q : TrackQueue) : TrackQueue :=
  { q with queue := [], current := none }

end TrackQueue

/-- `permissions.PermissionLevel` (an `IntEnum`). -/
inductive PermissionLevel
  | USER
  | MODERATOR
  | ADMIN
  | MAIN_ADMIN
deriving DecidableEq, Repr

/-- The `IntEnum` numeric value, used for the order comparisons in the source. -/
def PermissionLevel.toNat : PermissionLevel → Nat
  | USER => 0
  | MODERATOR => 1
  | ADMIN => 2
  | MAIN_ADMIN => 3

/-- A Discord guild member as the permission code reads it: id, bot flag, role ids. -/
structure Member where
  id : Nat
  bot : Bool := false
  roles : List Nat := []
deriving DecidableEq, Repr

/-- A Discord voice channel as the code reads it: id and member list. -/
structure VoiceChannel where
  id : Nat
  members : List Member := []
deriving DecidableEq, Repr

/-- `permissions.PermissionResult` -/
structure PermissionResult where
  allowed : Bool
  reason : String := ""
  level : PermissionLevel := PermissionLevel.USER
deriving DecidableEq, Repr

/-- `permissions.PermissionChecker`: the configured main-admin id and the
role-id-to-level dict `_admin_roles` (embedded as its item list). -/
structure PermissionChecker where
  main_admin_id : Nat
  admin_roles : List (Nat × PermissionLevel) := []
deriving DecidableEq, Repr

namespace PermissionChecker

/-- `PermissionChecker.get_user_permission_level`: main-admin id match wins,
else the maximum configured level among roles the member holds, default USER. -/
def get_user_permission_level (c : PermissionChecker) (m : Member) : PermissionLevel :=
  if m.id = c.main_admin_id then PermissionLevel.MAIN_ADMIN
  else
    c.admin_roles.foldl
      (fun max_level p =>
        if p.1 ∈ m.roles ∧ max_level.toNat < p.2.toNat then p.2 else max_level)
      PermissionLevel.USER

/-- `PermissionChecker.can_move_bot`. `guild` is the guild member list backing
`current_channel.guild.get_member` (the live owner-level resolution). -/
def can_move_bot (c : PermissionChecker) (guild : List Member) (requester : Member)
    (current_channel : Option VoiceChannel) (target_channel : VoiceChannel)
    (channel_owner_id : Option Nat) : PermissionResult :=
  let requester_level := c.get_user_permission_level requester
  match current_channel with
  | none => ⟨true, "Бот свободен", requester_level⟩
  | some cc =>
    if cc.id = target_channel.id then
      ⟨true, "Бот уже в этом канале", requester_level⟩
    else if requester_level = PermissionLevel.MAIN_ADMIN then
      ⟨true, "Главный администратор", requester_level⟩
    else
      match channel_owner_id with
      | none => ⟨true, "Нет владельца", requester_level⟩
      | some owner_id =>
        if requester.id = owner_id then
          ⟨true, "Владелец сессии", requester_level⟩
        else
          let allowed_by_level : Bool :=
            match guild.find? fun m => m.id == owner_id with
            | some owner_member =>
              decide ((c.get_user_permission_level owner_member).toNat < requester_level.toNat)
            | none => false
          cond allowed_by_level
            ⟨true, "Более высокий уровень прав", requester_level⟩
            (if cc.members.length ≤ 1 then
              ⟨true, "Канал пуст", requester_level⟩
            else
              ⟨false,
                "Бот уже используется в другом канале. Дождитесь завершения или попросите пользователя с более высокими правами.",
                requester_level⟩)

end PermissionChecker

/-- The voice transport (`discord.VoiceClient`) as the player reads it.
Presence of the record models a live connection (`is_connected()`);
`playing`/`paused` are the audio-source flags behind `is_playing()` /
`is_paused()`. -/
structure VoiceClient where
  channel_id : Nat
  playing : Bool := false
  paused : Bool := false
deriving DecidableEq, Repr

/-- `discord.VoiceClient.is_playing()`: actively playing, not paused. -/
def VoiceClient.is_playing (v : VoiceClient) : Bool := v.playing && !v.paused

/-- `discord.VoiceClient.is_paused()` -/
def VoiceClient.is_paused (v : VoiceClient) : Bool := v.playing && v.paused

/-- The outbound notifications of the player, recorded in order on an event log
(the model of the installed `_on_track_start` / `_on_track_end` /
`_on_queue_empty` / `_on_error` callbacks). -/
inductive MusicEvent
  | trackStart (item : QueueItem)
  | trackEnd (item : QueueItem)
  | queueEmpty
  | error (msg : String)
deriving DecidableEq, Repr

/-- One guild session of `MusicPlayer`: the per-`guild_id` slices of
`_states`, `_queues`, `_voice_clients`, `_preloaded` and `_retry_counts`
(`get_state`/`get_queue` create entries lazily, so `state` and `queue`
are total; `preloaded` is `none` when the dict has no entry, and
`some v` when the entry holds the resolved value `v`). -/
structure Session where
  state : GuildMusicState
  queue : TrackQueue := {}
  vc : Option VoiceClient := none
  preloaded : Option (Option String) := none
  retry_count : Nat := 0
  events : List MusicEvent := []
deriving DecidableEq, Repr

/-- A session as first created for a guild id. -/
def Session.init (gid : Nat) : Session :=
  { state := GuildMusicState.fresh gid 0 }

namespace MusicPlayer

/-- Python truthiness of the `Optional[str]` stream-url values
(`None` and the empty string are falsy). -/
def truthy : Option String → Bool
  | some s => s ≠ ""
  | none => false

/-- `MusicPlayer._preload_next`: resolves the queue head's stream URL into the
single-slot `_preloaded` cache (storing `None` when the queue is empty). -/
def preload_next (resolve : Track → Option String) (s : Session) : Session :=
  match s.queue.peek_next with
  | some item => { s with preloaded := some (resolve item.track) }
  | none => { s with preloaded := some none }

/-- `MusicPlayer._play_track` (the loop-TRACK replay path): sets `current`,
resolves directly (no preload consult), then plays and preloads. -/
def play_track (resolve : Track → Option String) (s : Session) (item : QueueItem)
    (now : Nat) : Session :=
  match s.vc with
  | none => { s with state := { s.state with is_playing := false } }
  | some v =>
    let s1 : Session :=
      { s with queue := s.queue.set_current (some item),
               state := { s.state with current_track := some item } }
    match resolve item.track with
    | none => { s1 with events := s1.events ++ [MusicEvent.error "Не удалось воспроизвести трек"] }
    | some _url =>
      preload_next resolve
        { s1 with
          vc := some { v with playing := true, paused := false },
          state := { s1.state with is_playing := true, is_paused := false, last_activity := now },
          events := s1.events ++ [MusicEvent.trackStart item] }

/-- The body of `MusicPlayer._play_next`. The recursion of the source
(bounded by the queue draining one item per retry) is made structural on
`fuel`, which the wrapper `play_next` instantiates with the queue length;
the `fuel = 0` fallback inside the cons branch is unreachable from the
wrapper since there `fuel` equals the queue length. -/
def play_next_go (resolve : Track → Option String) (now : Nat) :
    Nat → Session → Session
  | fuel, s =>
    match s.vc with
    | none => { s with state := { s.state with is_playing := false } }
    | some v =>
      match s.queue.queue with
      | [] =>
        { s with
          queue := s.queue.set_current none,
          state := { s.state with is_playing := false, current_track := none },
          events := s.events ++ [MusicEvent.queueEmpty] }
      | item :: rest =>
        let q1 := TrackQueue.update_positions { s.queue with queue := rest }
        let s1 : Session :=
          { s with queue := q1.set_current (some item),
                   state := { s.state with current_track := some item } }
        let pre := s1.preloaded.getD none
        let stream_url := if truthy pre then pre else resolve item.track
        match stream_url with
        | none =>
          if s.retry_count < 3 then
            match fuel with
            | fuel' + 1 =>
              play_next_go resolve now fuel' { s1 with retry_count := s.retry_count + 1 }
            | 0 => { s1 with retry_count := s.retry_count + 1 }
          else
            { s1 with
              retry_count := 0,
              events := s1.events ++ [MusicEvent.error "Не удалось воспроизвести трек"] }
        | some _url =>
          preload_next resolve
            { s1 with
              retry_count := 0,
              vc := some { v with playing := true, paused := false },
              state :=
                { s1.state with
                  is_playing := true, is_paused := false, last_activity := now },
              events := s1.events ++ [MusicEvent.trackStart item] }

/-- `MusicPlayer._play_next`. -/
def play_next (resolve : Track → Option String) (now : Nat) (s : Session) : Session :=
  play_next_go resolve now s.queue.queue.length s

/-- `MusicPlayer._on_track_finished`: fires the track-end notification, handles
loop modes (TRACK replays via `_play_track`; QUEUE appends a copy of the
finished item directly onto `_queue`), then advances via `_play_next`. -/
def on_track_finished (resolve : Track → Option String) (now : Nat) (s : Session) : Session :=
  let s0 : Session :=
    match s.state.current_track with
    | some cur => { s with events := s.events ++ [MusicEvent.trackEnd cur] }
    | none => s
  match s0.state.loop_mode, s0.state.current_track with
  | LoopMode.TRACK, some cur => play_track resolve s0 cur now
  | LoopMode.QUEUE, some cur =>
    let copied : QueueItem :=
      { track := cur.track, requester_id := cur.requester_id,
        requester_name := cur.requester_name, added_at := now,
        position := s0.queue.queue.length + 2 }
    play_next resolve now
      { s0 with
        queue := TrackQueue.update_positions
          { s0.queue with queue := s0.queue.queue ++ [copied] } }
  | _, _ => play_next resolve now s0

/-- `MusicPlayer.connect`: same channel returns the existing client; connected
elsewhere moves; otherwise a fresh connection (`ok` models transport success
within the 10s timeout) records `channel_owner_id = requester_id` and
refreshes activity; on failure nothing is mutated. -/
def connect (s : Session) (channel_id : Nat) (requester_id : Nat) (ok : Bool)
    (now : Nat) : Option VoiceClient × Session :=
  match s.vc with
  | some v =>
    if v.channel_id = channel_id then (some v, s)
    else
      let moved := { v with channel_id := channel_id }
      (some moved, { s with vc := some moved })
  | none =>
    if ok then
      let v : VoiceClient := { channel_id := channel_id }
      (some v,
        { s with
          vc := some v,
          state :=
            { s.state with
              channel_owner_id := some requester_id, last_activity := now } })
    else (none, s)

/-- `MusicPlayer.disconnect`: tears down the transport, replaces the state with
a fresh `GuildMusicState`, calls `queue.clear()` and drops the `_preloaded`
entry. -/
def disconnect (s : Session) (now : Nat) : Session :=
  { s with
    vc := none,
    state := GuildMusicState.fresh s.state.guild_id now,
    queue := s.queue.clear,
    preloaded := none }

/-- `MusicPlayer.play`: enqueues via `TrackQueue.add`; a full-queue rejection
returns `None` before anything else runs; otherwise starts playback when idle
or preloads when already playing, then refreshes activity. -/
def play (resolve : Track → Option String) (now : Nat) (s : Session) (track : Track)
    (requester_id : Nat) (requester_name : String) : Option QueueItem × Session :=
  let added := s.queue.add track requester_id requester_name now
  match added.1 with
  | none => (none, { s with queue := added.2 })
  | some item =>
    let s1 : Session := { s with queue := added.2 }
    let s2 :=
      if s1.state.is_playing = false then play_next resolve now s1
      else preload_next resolve s1
    (some item, { s2 with state := { s2.state with last_activity := now } })

/-- `MusicPlayer.pause`: requires the transport to be actively playing. -/
def pause (s : Session) (now : Nat) : Bool × Session :=
  match s.vc with
  | some v =>
    if v.is_playing then
      (true,
        { s with
          vc := some { v with paused := true },
          state := { s.state with is_paused := true, last_activity := now } })
    else (false, s)
  | none => (false, s)

/-- `MusicPlayer.resume`: requires a paused audio handle. -/
def resume (s : Session) (now : Nat) : Bool × Session :=
  match s.vc with
  | some v =>
    if v.is_paused then
      (true,
        { s with
          vc := some { v with paused := false },
          state := { s.state with is_paused := false, last_activity := now } })
    else (false, s)
  | none => (false, s)

/-- `MusicPlayer.skip`: stops the active audio (which delivers the finished
notification into the session flow), refreshes activity, and returns the
queue head peeked before the completion handler runs. -/
def skip (resolve : Track → Option String) (now : Nat) (s : Session) :
    Option QueueItem × Session :=
  match s.vc with
  | none => (none, s)
  | some v =>
    let s1 : Session :=
      if v.is_playing then { s with vc := some { v with playing := false } } else s
    let s2 : Session := { s1 with state := { s1.state with last_activity := now } }
    let next_hint := s2.queue.peek_next
    let s3 := if v.is_playing then on_track_finished resolve now s2 else s2
    (next_hint, s3)

/-- `MusicPlayer.stop` is `disconnect`. -/
def stop (s : Session) (now : Nat) : Session := disconnect s now

end MusicPlayer

/-! ### Derived operations used to state queue-discipline properties -/

/-- A sequence of `Add` calls (the essence of `add_multiple` with room for all). -/
def TrackQueue.add_all (q : TrackQueue) (ts : List Track) (rid : Nat) (rname : String)
    (now : Nat) : TrackQueue :=
  ts.foldl (fun q t => (q.add t rid rname now).2) q

/-- `n` successive `GetNext` calls, collecting the returned items. -/
def TrackQueue.pop_all : Nat → TrackQueue → List QueueItem
  | 0, _ => []
  | n + 1, q =>
    match q.get_next with
    | (none, _) => []
    | (some item, q2) => item :: TrackQueue.pop_all n q2

/-- The position invariant of the spec: every queued item's `position` equals
its 1-based rank plus 1 when `current` is set. -/
def TrackQueue.positions_ok (q : TrackQueue) : Prop :=
  ∀ i (hi : i < q.queue.length),
    (q.queue.get ⟨i, hi⟩).position = (if q.current.isSome then 2 else 1) + i

/-- A sequence of assignments to the `current` property. -/
def TrackQueue.apply_current_sets (q : TrackQueue) (xs : List (Option QueueItem)) :
    TrackQueue :=
  xs.foldl TrackQueue.set_current q

/-- The items a sequence of `current`-assignments finishes (pushes as eviction
candidates): each assignment that replaces a `some` current finishes it. -/
def finished_currents : Option QueueItem → List (Option QueueItem) → List QueueItem
  | _, [] => []
  | some c, x :: xs => c :: finished_currents x xs
  | none, x :: xs => finished_currents x xs

/-! ### Helper lemmas -/

theorem TrackQueue.renumber_length (start_pos : Nat) (l : List QueueItem) :
    (TrackQueue.renumber start_pos l).length = l.length := by
  induction l generalizing start_pos with
  | nil => rfl
  | cons a l ih => simp [TrackQueue.renumber, ih]

theorem TrackQueue.renumber_get (start_pos : Nat) (l : List QueueItem) (i : Nat)
    (hi : i < (TrackQueue.renumber start_pos l).length) :
    ((TrackQueue.renumber start_pos l).get ⟨i, hi⟩).position = start_pos + i := by
  induction l generalizing start_pos i with
  | nil => simp [TrackQueue.renumber] at hi
  | cons a l ih =>
    cases i with
    | zero => simp [TrackQueue.renumber]
    | succ j =>
      have hj : j < (TrackQueue.renumber (start_pos + 1) l).length := by
        simpa [TrackQueue.renumber] using hi
      have := ih (start_pos + 1) j hj
      simpa [TrackQueue.renumber, Nat.add_assoc, Nat.add_comm, Nat.add_left_comm] using this

/-- Renumbering changes only `position`; any projection ignoring it is preserved. -/
theorem TrackQueue.renumber_map_track (start_pos : Nat) (l : List QueueItem) :
    (TrackQueue.renumber start_pos l).map (fun it => it.track) =
      l.map (fun it => it.track) := by
  induction l generalizing start_pos with
  | nil => rfl
  | cons a l ih => simp [TrackQueue.renumber, ih]

theorem TrackQueue.renumber_map_requester (start_pos : Nat) (l : List QueueItem) :
    (TrackQueue.renumber start_pos l).map
        (fun it => (it.track, it.requester_id, it.requester_name)) =
      l.map (fun it => (it.track, it.requester_id, it.requester_name)) := by
  induction l generalizing start_pos with
  | nil => rfl
  | cons a l ih => simp [TrackQueue.renumber, ih]

theorem TrackQueue.update_positions_ok (q : TrackQueue) :
    TrackQueue.positions_ok (TrackQueue.update_positions q) := by
  intro i hi
  simp only [TrackQueue.update_positions] at hi ⊢
  exact TrackQueue.renumber_get _ q.queue i hi

/-! ### Concrete fixtures for witnesses and counterexamples -/

/-- A concrete track. -/
def trackA : Track := { title := "A", url := "a", duration := 100 }

/-- A second concrete track. -/
def trackB : Track := { title := "B", url := "b", duration := 60 }

/-- A third concrete track. -/
def trackC : Track := { title := "C", url := "c", duration := 30 }

/-- A concrete queue item holding `trackA`. -/
def itemA : QueueItem := { track := trackA, requester_id := 5, requester_name := "n", position := 1 }

/-- A resolver for which every stream-URL resolution fails. -/
def failingResolve : Track → Option String := fun _ => none

/-- A resolver for which every stream-URL resolution succeeds. -/
def okResolve : Track → Option String := fun _ => some "stream"

/-- Builds a queue by adding the given tracks to an empty default queue. -/
def mkQueue (ts : List Track) : TrackQueue := TrackQueue.add_all {} ts 1 "u" 0

/-! ### C3: queue capacity -/

/-- C3: an `Add` on a queue with `size() < maxSize` returns a `QueueItem`,
appends it, and increases `size()` by exactly one; an `Add` on a queue with
`size() == maxSize` returns no item and leaves the queue (contents and size)
unchanged. -/
theorem C3_add_capacity (q : TrackQueue) (t : Track) (rid : Nat) (rname : String)
    (now : Nat) :
    (q.size < q.max_size →
      ∃ item q2, q.add t rid rname now = (some item, q2) ∧
        q2.size = q.size + 1 ∧ q2.queue = q.queue ++ [item]) ∧
    (q.size = q.max_size → q.add t rid rname now = (none, q)) := by
  constructor
  · intro h
    have hfull : q.is_full = false := by
      simp only [TrackQueue.is_full, ge_iff_le, decide_eq_false_iff_not, not_le]
      exact h
    simp only [TrackQueue.add, hfull, Bool.false_eq_true, if_false]
    refine ⟨_, _, rfl, ?_, rfl⟩
    simp [TrackQueue.size]
  · intro h
    have h2 : q.queue.length = q.max_size := h
    have hfull : q.is_full = true := by
      simp only [TrackQueue.is_full, ge_iff_le, decide_eq_true_eq]
      omega
    simp only [TrackQueue.add, hfull, if_true]

/-- A concrete full queue: two tracks added to a two-slot queue. -/
def fullQueue2 : TrackQueue := TrackQueue.add_all { max_size := 2 } [trackA, trackB] 1 "u" 0

/-- C3 witness: on an empty two-slot queue the first add succeeds and raises
the size to 1; on a full queue the add is rejected unchanged. -/
theorem C3_add_capacity_witness :
    (∃ item q2, TrackQueue.add { max_size := 2 } trackA 1 "u" 0 = (some item, q2) ∧
      q2.size = TrackQueue.size { max_size := 2 } + 1 ∧
      q2.queue = TrackQueue.queue { max_size := 2 } ++ [item]) ∧
    TrackQueue.add fullQueue2 trackC 1 "u" 0 = (none, fullQueue2) := by
  constructor
  · exact (C3_add_capacity { max_size := 2 } trackA 1 "u" 0).1 (by decide)
  · exact (C3_add_capacity fullQueue2 trackC 1 "u" 0).2 (by decide)

/-! ### C10: rejected play is side-effect free -/

/-- C10: when the session's queue is full, `play` returns the rejection
(`None`) and the session is returned entirely unchanged: queue contents,
`current`, the `isPlaying`/`isPaused` flags, `lastActivity`, the preload slot
and the event log all keep their prior values, and no play-next transition or
preload runs. -/
theorem C10_rejected_play_pure (resolve : Track → Option String) (now : Nat) (s : Session)
    (t : Track) (rid : Nat) (rname : String) (h : s.queue.is_full = true) :
    MusicPlayer.play resolve now s t rid rname = (none, s) := by
  simp only [MusicPlayer.play, TrackQueue.add, h, if_true]

/-- C10 witness: a session whose two-slot queue already holds two tracks
rejects a further `play` without any state change. -/
theorem C10_rejected_play_pure_witness :
    MusicPlayer.play okResolve 7
        { state := GuildMusicState.fresh 1 0, queue := fullQueue2 } trackC 9 "w" =
      (none, { state := GuildMusicState.fresh 1 0, queue := fullQueue2 }) :=
  C10_rejected_play_pure okResolve 7
    { state := GuildMusicState.fresh 1 0, queue := fullQueue2 } trackC 9 "w" (by decide)

/-! ### C6: disconnect postcondition (corrected) -/

/-- A concrete session with a non-empty queue history. -/
def sessionWithHistory : Session :=
  { state := { guild_id := 1, is_playing := true, channel_owner_id := some 3 },
    queue := { queue := [], history := [itemA] },
    vc := some { channel_id := 7, playing := true },
    preloaded := some (some "cached") }

/-- C6 counterexample: the claim says that after `Disconnect` the session's
TrackQueue is a fresh empty instance with an empty history; but `disconnect`
only calls `queue.clear()`, which does not touch `_history`, so a non-empty
history survives the disconnect. -/
theorem C6_history_survives_disconnect :
    (MusicPlayer.disconnect sessionWithHistory 5).queue.history = [itemA] ∧
    [itemA] ≠ ([] : List QueueItem) := by
  constructor
  · rfl
  · decide

/-- C6 amended: after `Disconnect` the `GuildMusicState` is a fresh instance,
the voice transport is gone, the queue's pending items and `current` pointer
are cleared and the preloaded stream-URL cache entry is dropped, while the
queue's history (and capacity) are retained from before; a second
`Disconnect` yields the same final state with no error. -/
theorem C6_disconnect_postcondition (s : Session) (now : Nat) :
    (MusicPlayer.disconnect s now).state = GuildMusicState.fresh s.state.guild_id now ∧
    (MusicPlayer.disconnect s now).vc = none ∧
    (MusicPlayer.disconnect s now).queue.queue = [] ∧
    (MusicPlayer.disconnect s now).queue.current = none ∧
    (MusicPlayer.disconnect s now).queue.history = s.queue.history ∧
    (MusicPlayer.disconnect s now).queue.max_size = s.queue.max_size ∧
    (MusicPlayer.disconnect s now).preloaded = none ∧
    MusicPlayer.disconnect (MusicPlayer.disconnect s now) now =
      MusicPlayer.disconnect s now := by
  refine ⟨rfl, rfl, rfl, rfl, rfl, rfl, rfl, ?_⟩
  simp [MusicPlayer.disconnect, TrackQueue.clear, GuildMusicState.fresh]

/-! ### C7: connect ownership (corrected) -/

/-- A session holding a recorded owner but no live voice connection (the state
left behind when the transport connection is lost without an explicit
`disconnect`, which is exactly what `is_connected()` guards against). -/
def staleOwnerSession : Session :=
  { state := { guild_id := 1, channel_owner_id := some 1 }, vc := none }

/-- C7 counterexample: the claim says a later successful `Connect` leaves an
already-recorded `channelOwnerId` unchanged; but on every fresh connection
establishment the code assigns `state.channel_owner_id = requester_id`
unconditionally, overwriting the recorded owner 1 with the new requester 2. -/
theorem C7_owner_overwritten :
    staleOwnerSession.state.channel_owner_id = some 1 ∧
    (MusicPlayer.connect staleOwnerSession 5 2 true 0).1.isSome = true ∧
    (MusicPlayer.connect staleOwnerSession 5 2 true 0).2.state.channel_owner_id =
      some 2 := by
  decide

/-- C7 amended: a successful establishment of a new voice connection always
records the requester as `channelOwnerId` (overwriting any stale recorded
owner); a failed establishment mutates nothing; and when a live connection
already exists (same-channel return or move) the whole `GuildMusicState`,
owner included, is unchanged. -/
theorem C7_connect_ownership (s : Session) (ch rid : Nat) (ok : Bool) (now : Nat) :
    (s.vc = none → ok = true →
      (MusicPlayer.connect s ch rid ok now).2.state.channel_owner_id = some rid) ∧
    (s.vc = none → ok = false → MusicPlayer.connect s ch rid ok now = (none, s)) ∧
    (∀ v, s.vc = some v → (MusicPlayer.connect s ch rid ok now).2.state = s.state) := by
  refine ⟨?_, ?_, ?_⟩
  · intro hvc hok
    simp [MusicPlayer.connect, hvc, hok]
  · intro hvc hok
    simp [MusicPlayer.connect, hvc, hok]
  · intro v hvc
    by_cases hch : v.channel_id = ch
    · simp [MusicPlayer.connect, hvc, hch]
    · simp [MusicPlayer.connect, hvc, hch]

/-- C7 witness: on a session with no state at all, a successful connect
records the requester as owner; a failed one changes nothing; with a live
connection the state is untouched. -/
theorem C7_connect_ownership_witness :
    (MusicPlayer.connect (Session.init 4) 5 9 true 3).2.state.channel_owner_id = some 9 ∧
    MusicPlayer.connect (Session.init 4) 5 9 false 3 = (none, Session.init 4) ∧
    (MusicPlayer.connect sessionWithHistory 8 9 true 3).2.state =
      sessionWithHistory.state := by
  refine ⟨?_, ?_, ?_⟩
  · exact (C7_connect_ownership (Session.init 4) 5 9 true 3).1 rfl rfl
  · exact (C7_connect_ownership (Session.init 4) 5 9 false 3).2.1 rfl rfl
  · exact (C7_connect_ownership sessionWithHistory 8 9 true 3).2.2
      { channel_id := 7, playing := true } rfl

/-! ### C5: history eviction (corrected) -/

/-- A family of distinguishable queue items. -/
def mkItem (j : Nat) : QueueItem := { track := trackA, requester_id := j, requester_name := "u" }

/-- Twelve successive `current`-assignments on a fresh queue: items 0..10 get
replaced (finished) and item 11 remains current. -/
def twelveSets : TrackQueue :=
  TrackQueue.apply_current_sets {} ((List.range 12).map fun j => some (mkItem j))

/-- C5 counterexample: after more than 10 items have finished, the claim says
the history holds the most recent 10 with the oldest evicted first, i.e. it
would contain item 10 and not item 0; the code instead stops pushing once the
history reaches 10 entries, so the history is the first ten finished items:
item 0 is still there and item 10 never enters. -/
theorem C5_history_keeps_oldest :
    twelveSets.history.length = 10 ∧
    mkItem 0 ∈ twelveSets.history ∧
    mkItem 10 ∉ twelveSets.history := by
  decide

/-- C5 amended: each assignment that replaces a non-empty `current` pushes the
previous current into the history only while the history holds fewer than 10
items; the history therefore always equals the first 10 items ever finished
(no eviction of the oldest — later finished items are discarded). -/
theorem C5_history_first_ten (xs : List (Option QueueItem)) (q : TrackQueue)
    (hlim : q.history_limit = 10) (hlen : q.history.length ≤ 10) :
    (TrackQueue.apply_current_sets q xs).history =
      (q.history ++ finished_currents q.current xs).take 10 := by
  induction xs generalizing q with
  | nil =>
    simp only [TrackQueue.apply_current_sets, List.foldl_nil, finished_currents,
      List.append_nil]
    exact (List.take_of_length_le hlen).symm
  | cons x xs ih =>
    have hstep : TrackQueue.apply_current_sets q (x :: xs) =
        TrackQueue.apply_current_sets (q.set_current x) xs := rfl
    rw [hstep]
    have hlim2 : (q.set_current x).history_limit = 10 := hlim
    have hlen2 : (q.set_current x).history.length ≤ 10 := by
      simp only [TrackQueue.set_current]
      match hc : q.current with
      | none => simpa using hlen
      | some c =>
        simp only [hlim]
        by_cases hl : q.history.length < 10
        · simp only [hl, if_true]
          simp
          omega
        · simp only [hl, if_false]
          exact hlen
    rw [ih (q.set_current x) hlim2 hlen2]
    match hc : q.current with
    | none =>
      simp [TrackQueue.set_current, hc, finished_currents]
    | some c =>
      simp only [TrackQueue.set_current, hc, hlim, finished_currents]
      by_cases hl : q.history.length < 10
      · simp only [hl, if_true]
        rw [List.append_assoc]
        rfl
      · simp only [hl, if_false]
        have h10 : q.history.length = 10 := by omega
        rw [List.take_append_of_le_length (by omega), List.take_append_of_le_length (by omega)]
    
/-- C5 witness: two assignments on a fresh queue finish exactly the first
item, and the history is that one item. -/
theorem C5_history_first_ten_witness :
    (TrackQueue.apply_current_sets {} [some (mkItem 1), some (mkItem 2)]).history =
      (TrackQueue.history {} ++
        finished_currents (TrackQueue.current {}) [some (mkItem 1), some (mkItem 2)]).take
        10 :=
  C5_history_first_ten [some (mkItem 1), some (mkItem 2)] {} rfl (by decide)

/-! ### C4: FIFO discipline and position bookkeeping (corrected) -/

theorem TrackQueue.add_all_map_track (ts : List Track) (q : TrackQueue) (rid : Nat)
    (rname : String) (now : Nat) (h : q.queue.length + ts.length ≤ q.max_size) :
    (q.add_all ts rid rname now).queue.map (fun it => it.track) =
      q.queue.map (fun it => it.track) ++ ts := by
  induction ts generalizing q with
  | nil => simp [TrackQueue.add_all]
  | cons t ts ih =>
    have hfull : q.is_full = false := by
      simp only [TrackQueue.is_full, ge_iff_le, decide_eq_false_iff_not, not_le]
      simp only [List.length_cons] at h
      omega
    have hadd : q.add t rid rname now =
        (some { track := t, requester_id := rid, requester_name := rname, added_at := now,
                position := q.queue.length + 1 + (if q.current.isSome then 1 else 0) },
         { q with queue := q.queue ++
            [{ track := t, requester_id := rid, requester_name := rname, added_at := now,
               position := q.queue.length + 1 + (if q.current.isSome then 1 else 0) }] }) := by
      simp only [TrackQueue.add, hfull, Bool.false_eq_true, if_false]
    have hstep : q.add_all (t :: ts) rid rname now =
        TrackQueue.add_all (q.add t rid rname now).2 ts rid rname now := rfl
    rw [hstep, hadd]
    rw [ih]
    · simp
    · simp only [List.length_append, List.length_cons] at h ⊢
      simp
      omega

theorem TrackQueue.pop_all_map_track :
    ∀ (n : Nat) (q : TrackQueue), n = q.queue.length →
      (TrackQueue.pop_all n q).map (fun it => it.track) =
        q.queue.map (fun it => it.track) := by
  intro n
  induction n with
  | zero =>
    intro q hn
    have : q.queue = [] := by
      cases hq : q.queue with
      | nil => rfl
      | cons a l => rw [hq] at hn; simp at hn
    simp [TrackQueue.pop_all, this]
  | succ m ih =>
    intro q hn
    cases hq : q.queue with
    | nil => rw [hq] at hn; simp at hn
    | cons item rest =>
      have hget : q.get_next = (some item,
          TrackQueue.update_positions { q with queue := rest }) := by
        simp only [TrackQueue.get_next, hq]
      have hlen : m = (TrackQueue.update_positions { q with queue := rest }).queue.length := by
        rw [hq] at hn
        simp only [TrackQueue.update_positions, TrackQueue.renumber_length]
        simp only [List.length_cons] at hn
        omega
      simp only [TrackQueue.pop_all, hget, List.map_cons, hq]
      rw [ih _ hlen]
      simp only [TrackQueue.update_positions, TrackQueue.renumber_map_track]

/-- A concrete queue whose item positions are stale with respect to a later
`current` assignment: two adds while `current` was unset (positions 1 and 2),
then `current` is set, which does not recompute positions. -/
def staleQueue : TrackQueue :=
  (TrackQueue.add_all {} [trackA, trackB] 1 "u" 0).set_current (some (mkItem 9))

/-- C4 counterexample: the claim requires that after every `RemoveAt` call
each remaining item's position equal its 1-based rank plus 1 when `current`
is set; on `staleQueue` (reached by two `Add` calls and a `current`
assignment, all public operations) the call `RemoveAt(1)` removes nothing and
recomputes nothing, leaving the first remaining item at position 1 where rank
1 plus offset 1 demands 2. -/
theorem C4_stale_positions_after_remove :
    (staleQueue.remove_at 1).1 = none ∧
    (staleQueue.remove_at 1).2.current.isSome = true ∧
    ((staleQueue.remove_at 1).2.queue.map fun it => it.position) = [1, 2] := by
  decide

/-- C4 amended: `GetNext` returns items in exactly the FIFO order of their
successful `Add` calls; after every `GetNext` and after every `RemoveAt` that
actually removes an item, every remaining item's position equals its 1-based
rank plus 1 when `current` is set (plus 0 otherwise); a `RemoveAt` that
removes nothing returns the queue completely unchanged, so positions keep
whatever values they had before the call. -/
theorem C4_fifo_and_positions :
    (∀ (ts : List Track) (rid : Nat) (rname : String) (now maxS : Nat),
      ts.length ≤ maxS →
      (TrackQueue.pop_all ts.length
          (TrackQueue.add_all { max_size := maxS } ts rid rname now)).map
        (fun it => it.track) = ts) ∧
    (∀ q : TrackQueue, TrackQueue.positions_ok (q.get_next).2) ∧
    (∀ (q : TrackQueue) (p : Int),
      ((q.remove_at p).1.isSome = true → TrackQueue.positions_ok (q.remove_at p).2) ∧
      ((q.remove_at p).1 = none → (q.remove_at p).2 = q)) := by
  refine ⟨?_, ?_, ?_⟩
  · intro ts rid rname now maxS hts
    have hmap : (TrackQueue.add_all { max_size := maxS } ts rid rname now).queue.map
        (fun it => it.track) = ts := by
      have := TrackQueue.add_all_map_track ts { max_size := maxS } rid rname now
        (by simpa using hts)
      simpa using this
    have hlen : ts.length =
        (TrackQueue.add_all { max_size := maxS } ts rid rname now).queue.length := by
      have := congrArg List.length hmap
      simpa using this.symm
    rw [TrackQueue.pop_all_map_track ts.length _ hlen, hmap]
  · intro q
    cases hq : q.queue with
    | nil =>
      have hget : (q.get_next).2 = q := by
        simp only [TrackQueue.get_next, hq]
      rw [hget]
      intro i hi
      rw [hq] at hi
      simp at hi
    | cons item rest =>
      have hget : (q.get_next).2 = TrackQueue.update_positions { q with queue := rest } := by
        simp only [TrackQueue.get_next, hq]
      rw [hget]
      exact TrackQueue.update_positions_ok _
  · intro q p
    by_cases hc : (if q.current.isSome then p - 2 else p - 1) < 0 ∨
        (q.queue.length : Int) ≤ (if q.current.isSome then p - 2 else p - 1)
    · constructor
      · intro h1
        exfalso
        simp only [TrackQueue.remove_at, if_pos hc] at h1
        simp at h1
      · intro _
        simp only [TrackQueue.remove_at, if_pos hc]
    · constructor
      · intro _
        simp only [TrackQueue.remove_at, if_neg hc]
        exact TrackQueue.update_positions_ok _
      · intro h1
        exfalso
        simp only [TrackQueue.remove_at, if_neg hc] at h1
        have hrange : (if q.current.isSome then p - 2 else p - 1).toNat < q.queue.length := by
          omega
        rw [List.getElem?_eq_getElem hrange] at h1
        simp at h1

/-- C4 witness: two adds pop back in FIFO order; a `GetNext` and a removing
`RemoveAt` leave consistent positions; the `RemoveAt(1)` on the stale queue
returned nothing and left the queue unchanged. -/
theorem C4_fifo_and_positions_witness :
    (TrackQueue.pop_all 2 (TrackQueue.add_all { max_size := 5 } [trackA, trackB] 1 "u" 0)).map
        (fun it => it.track) = [trackA, trackB] ∧
    TrackQueue.positions_ok ((mkQueue [trackA, trackB]).get_next).2 ∧
    TrackQueue.positions_ok ((mkQueue [trackA, trackB]).remove_at 2).2 ∧
    (staleQueue.remove_at 1).2 = staleQueue := by
  refine ⟨?_, ?_, ?_, ?_⟩
  · exact C4_fifo_and_positions.1 [trackA, trackB] 1 "u" 0 5 (by decide)
  · exact C4_fifo_and_positions.2.1 (mkQueue [trackA, trackB])
  · exact (C4_fifo_and_positions.2.2 (mkQueue [trackA, trackB]) 2).1 (by decide)
  · exact (C4_fifo_and_positions.2.2 staleQueue 1).2 (by decide)

/-! ### C8: CanMoveSession decision (corrected) -/

/-- The session's own bot account, present in its voice channel. -/
def sessionBot : Member := { id := 100, bot := true }

/-- A second, unrelated bot account in the same channel. -/
def otherBot : Member := { id := 101, bot := true }

/-- The recorded owner (a plain USER). -/
def ownerMember : Member := { id := 1 }

/-- The requester (a plain USER, not the owner). -/
def requesterMember : Member := { id := 2 }

/-- A checker with no configured roles and an unrelated main admin. -/
def checker8 : PermissionChecker := { main_admin_id := 999 }

/-- The session's current channel: occupied by the session bot and another bot
only — no human (non-bot) occupants at all. -/
def currentChannel8 : VoiceChannel := { id := 10, members := [sessionBot, otherBot] }

/-- The move target. -/
def targetChannel8 : VoiceChannel := { id := 20 }

/-- C8 counterexample: the claim allows the move whenever the current channel
has no human (non-bot) occupants besides the session itself; here the channel
holds only two bots (zero non-bot occupants), yet the code counts raw
`len(current_channel.members) <= 1` (bots included), finds 2 members, and
denies the USER-level requester. -/
theorem C8_bot_occupants_denied :
    (currentChannel8.members.filter fun m => !m.bot).length = 0 ∧
    (checker8.can_move_bot [ownerMember, requesterMember] requesterMember
      (some currentChannel8) targetChannel8 (some 1)).allowed = false ∧
    (checker8.can_move_bot [ownerMember, requesterMember] requesterMember
      (some currentChannel8) targetChannel8 (some 1)).reason ≠ "" := by
  decide

/-- C8 amended: the move is allowed iff no session exists yet (no current
channel), or the target equals the current channel, or the requester is
MAIN_ADMIN, or there is no recorded owner, or the requester is the owner, or
the owner resolves live in the guild to a member whose level is strictly
below the requester's, or the current channel has at most one occupant in
total (the session itself, counting bots); every denial carries a non-empty
reason. In particular, with the owner present (so the channel has at least
two occupants) and the requester's level not above the owner's, the move is
denied. -/
theorem C8_move_decision (c : PermissionChecker) (guild : List Member) (requester : Member)
    (current_channel : Option VoiceChannel) (target_channel : VoiceChannel)
    (owner : Option Nat) :
    ((c.can_move_bot guild requester current_channel target_channel owner).allowed = true ↔
      current_channel = none ∨
      ∃ cc, current_channel = some cc ∧
        (cc.id = target_channel.id ∨
         c.get_user_permission_level requester = PermissionLevel.MAIN_ADMIN ∨
         owner = none ∨
         ∃ oid, owner = some oid ∧
           (requester.id = oid ∨
            (∃ om, guild.find? (fun m => m.id == oid) = some om ∧
              (c.get_user_permission_level om).toNat <
                (c.get_user_permission_level requester).toNat) ∨
            cc.members.length ≤ 1))) ∧
    ((c.can_move_bot guild requester current_channel target_channel owner).allowed = false →
      (c.can_move_bot guild requester current_channel target_channel owner).reason ≠ "") := by
  cases current_channel with
  | none =>
    have hall : (c.can_move_bot guild requester none target_channel owner).allowed = true := by
      simp [PermissionChecker.can_move_bot]
    refine ⟨⟨fun _ => Or.inl rfl, fun _ => hall⟩, fun hfalse => ?_⟩
    rw [hall] at hfalse
    cases hfalse
  | some cc =>
    by_cases h1 : cc.id = target_channel.id
    · have hall : (c.can_move_bot guild requester (some cc) target_channel owner).allowed
          = true := by
        simp [PermissionChecker.can_move_bot, h1]
      refine ⟨⟨fun _ => Or.inr ⟨cc, rfl, Or.inl h1⟩, fun _ => hall⟩, fun hfalse => ?_⟩
      rw [hall] at hfalse
      cases hfalse
    · by_cases h2 : c.get_user_permission_level requester = PermissionLevel.MAIN_ADMIN
      · have hall : (c.can_move_bot guild requester (some cc) target_channel owner).allowed
            = true := by
          simp [PermissionChecker.can_move_bot, h1, h2]
        refine ⟨⟨fun _ => Or.inr ⟨cc, rfl, Or.inr (Or.inl h2)⟩, fun _ => hall⟩,
          fun hfalse => ?_⟩
        rw [hall] at hfalse
        cases hfalse
      · cases owner with
        | none =>
          have hall : (c.can_move_bot guild requester (some cc) target_channel none).allowed
              = true := by
            simp [PermissionChecker.can_move_bot, h1, h2]
          refine ⟨⟨fun _ => Or.inr ⟨cc, rfl, Or.inr (Or.inr (Or.inl rfl))⟩, fun _ => hall⟩,
            fun hfalse => ?_⟩
          rw [hall] at hfalse
          cases hfalse
        | some oid =>
          by_cases h3 : requester.id = oid
          · have hall : (c.can_move_bot guild requester (some cc) target_channel
                (some oid)).allowed = true := by
              simp [PermissionChecker.can_move_bot, h1, h2, h3]
            refine ⟨⟨fun _ =>
              Or.inr ⟨cc, rfl, Or.inr (Or.inr (Or.inr ⟨oid, rfl, Or.inl h3⟩))⟩,
              fun _ => hall⟩, fun hfalse => ?_⟩
            rw [hall] at hfalse
            cases hfalse
          · cases hfind : guild.find? (fun m => m.id == oid) with
            | some om =>
              by_cases h4 : (c.get_user_permission_level om).toNat <
                  (c.get_user_permission_level requester).toNat
              · have hall : (c.can_move_bot guild requester (some cc) target_channel
                    (some oid)).allowed = true := by
                  simp [PermissionChecker.can_move_bot, h1, h2, h3, hfind, h4]
                refine ⟨⟨fun _ => Or.inr ⟨cc, rfl, Or.inr (Or.inr (Or.inr
                  ⟨oid, rfl, Or.inr (Or.inl ⟨om, hfind, h4⟩)⟩))⟩,
                  fun _ => hall⟩, fun hfalse => ?_⟩
                rw [hall] at hfalse
                cases hfalse
              · by_cases h5 : cc.members.length ≤ 1
                · have hall : (c.can_move_bot guild requester (some cc) target_channel
                      (some oid)).allowed = true := by
                    simp [PermissionChecker.can_move_bot, h1, h2, h3, hfind, h4, h5]
                  refine ⟨⟨fun _ => Or.inr ⟨cc, rfl, Or.inr (Or.inr (Or.inr
                    ⟨oid, rfl, Or.inr (Or.inr h5)⟩))⟩,
                    fun _ => hall⟩, fun hfalse => ?_⟩
                  rw [hall] at hfalse
                  cases hfalse
                · have hall : (c.can_move_bot guild requester (some cc) target_channel
                      (some oid)).allowed = false := by
                    simp [PermissionChecker.can_move_bot, h1, h2, h3, hfind, h4, h5]
                  have hres : (c.can_move_bot guild requester (some cc) target_channel
                      (some oid)).reason ≠ "" := by
                    simp [PermissionChecker.can_move_bot, h1, h2, h3, hfind, h4, h5]
                  refine ⟨⟨fun htrue => ?_, fun hrhs => ?_⟩, fun _ => hres⟩
                  · rw [hall] at htrue
                    cases htrue
                  · exfalso
                    rcases hrhs with hnone | ⟨cc2, hcc2, hdisj⟩
                    · cases hnone
                    · cases hcc2
                      rcases hdisj with ha | hb | hc | ⟨oid2, hoid2, hd⟩
                      · exact h1 ha
                      · exact h2 hb
                      · cases hc
                      · cases hoid2
                        rcases hd with he | ⟨om2, hom2, hf⟩ | hg
                        · exact h3 he
                        · rw [hfind] at hom2
                          cases hom2
                          exact h4 hf
                        · exact h5 hg
            | none =>
              by_cases h5 : cc.members.length ≤ 1
              · have hall : (c.can_move_bot guild requester (some cc) target_channel
                    (some oid)).allowed = true := by
                  simp [PermissionChecker.can_move_bot, h1, h2, h3, hfind, h5]
                refine ⟨⟨fun _ => Or.inr ⟨cc, rfl, Or.inr (Or.inr (Or.inr
                  ⟨oid, rfl, Or.inr (Or.inr h5)⟩))⟩,
                  fun _ => hall⟩, fun hfalse => ?_⟩
                rw [hall] at hfalse
                cases hfalse
              · have hall : (c.can_move_bot guild requester (some cc) target_channel
                    (some oid)).allowed = false := by
                  simp [PermissionChecker.can_move_bot, h1, h2, h3, hfind, h5]
                have hres : (c.can_move_bot guild requester (some cc) target_channel
                    (some oid)).reason ≠ "" := by
                  simp [PermissionChecker.can_move_bot, h1, h2, h3, hfind, h5]
                refine ⟨⟨fun htrue => ?_, fun hrhs => ?_⟩, fun _ => hres⟩
                · rw [hall] at htrue
                  cases htrue
                · exfalso
                  rcases hrhs with hnone | ⟨cc2, hcc2, hdisj⟩
                  · cases hnone
                  · cases hcc2
                    rcases hdisj with ha | hb | hc | ⟨oid2, hoid2, hd⟩
                    · exact h1 ha
                    · exact h2 hb
                    · cases hc
                    · cases hoid2
                      rcases hd with he | ⟨om2, hom2, hf⟩ | hg
                      · exact h3 he
                      · rw [hfind] at hom2
                        cases hom2
                      · exact h5 hg

/-- C8 witness: the denial instance of the amended decision — owner at USER
level still resolvable in the guild and present with the requester in the
channel, requester at USER level: denied with a reason; and an allow
instance: a MODERATOR-role requester outranking the USER owner is allowed. -/
theorem C8_move_decision_witness :
    ((checker8.can_move_bot [ownerMember, requesterMember] requesterMember
        (some { id := 10, members := [sessionBot, ownerMember, requesterMember] })
        targetChannel8 (some 1)).allowed = false →
      (checker8.can_move_bot [ownerMember, requesterMember] requesterMember
        (some { id := 10, members := [sessionBot, ownerMember, requesterMember] })
        targetChannel8 (some 1)).reason ≠ "") ∧
    ((checker8.can_move_bot [ownerMember, requesterMember] requesterMember
        (some { id := 10, members := [sessionBot, ownerMember, requesterMember] })
        targetChannel8 (some 1)).allowed = false) := by
  constructor
  · exact (C8_move_decision checker8 [ownerMember, requesterMember] requesterMember
      (some { id := 10, members := [sessionBot, ownerMember, requesterMember] })
      targetChannel8 (some 1)).2
  · decide

/-! ### C2: retry policy for stream-URL resolution -/

theorem play_next_go_drain (resolve : Track → Option String) (now : Nat)
    (hres : ∀ t, resolve t = none) :
    ∀ (n : Nat) (s : Session) (v : VoiceClient), s.vc = some v →
      MusicPlayer.truthy (s.preloaded.getD none) = false →
      s.retry_count ≤ 3 → 4 - s.retry_count ≤ n → n = s.queue.queue.length →
      (MusicPlayer.play_next_go resolve now n s).queue.queue.length
          = n - (4 - s.retry_count) ∧
      (MusicPlayer.play_next_go resolve now n s).events =
        s.events ++ [MusicEvent.error "Не удалось воспроизвести трек"] ∧
      (MusicPlayer.play_next_go resolve now n s).retry_count = 0 ∧
      (MusicPlayer.play_next_go resolve now n s).vc = s.vc ∧
      (MusicPlayer.play_next_go resolve now n s).state.is_playing
          = s.state.is_playing := by
  intro n
  induction n with
  | zero =>
    intro s v hvc hpre hr hge hlen
    omega
  | succ m ih =>
    intro s v hvc hpre hr hge hlen
    cases hq : s.queue.queue with
    | nil =>
      rw [hq] at hlen
      simp at hlen
    | cons item rest =>
      have hrest : rest.length = m := by
        rw [hq] at hlen
        simp only [List.length_cons] at hlen
        omega
      have hunfold : MusicPlayer.play_next_go resolve now (m + 1) s =
          (if s.retry_count < 3 then
            MusicPlayer.play_next_go resolve now m
              { s with
                queue := (TrackQueue.update_positions
                    { s.queue with queue := rest }).set_current (some item),
                state := { s.state with current_track := some item },
                retry_count := s.retry_count + 1 }
          else
            { s with
              queue := (TrackQueue.update_positions
                  { s.queue with queue := rest }).set_current (some item),
              state := { s.state with current_track := some item },
              retry_count := 0,
              events := s.events ++
                [MusicEvent.error "Не удалось воспроизвести трек"] }) := by
        conv_lhs => rw [MusicPlayer.play_next_go]
        simp only [hvc, hq, hpre, hres, Bool.false_eq_true, if_false]
      rw [hunfold]
      by_cases hlt : s.retry_count < 3
      · rw [if_pos hlt]
        have hIH := ih
          { s with
            queue := (TrackQueue.update_positions
                { s.queue with queue := rest }).set_current (some item),
            state := { s.state with current_track := some item },
            retry_count := s.retry_count + 1 }
          v hvc hpre (show s.retry_count + 1 ≤ 3 by omega)
          (show 4 - (s.retry_count + 1) ≤ m by omega)
          (by
            show m = ((TrackQueue.update_positions
                { s.queue with queue := rest }).set_current (some item)).queue.length
            simp only [TrackQueue.set_current, TrackQueue.update_positions,
              TrackQueue.renumber_length]
            omega)
        obtain ⟨e1, e2, e3, e4, e5⟩ := hIH
        refine ⟨?_, e2, e3, e4, e5⟩
        rw [e1]
        show m - (4 - (s.retry_count + 1)) = m + 1 - (4 - s.retry_count)
        omega
      · rw [if_neg hlt]
        have h3 : s.retry_count = 3 := by omega
        refine ⟨?_, rfl, rfl, rfl, rfl⟩
        simp only [TrackQueue.set_current, TrackQueue.update_positions,
          TrackQueue.renumber_length]
        omega

/-- C2: when every stream-URL resolution fails (and no usable preload is
cached), a play-next transition starting with a zero retry count pops and
tries successive items, retrying at most `maxRetries = 3` times after the
first failure (four items consumed in all), then fires the `OnError`
notification exactly once and halts: the remaining queue is not drained, no
track is started, the transport is untouched and the retry counter is reset. -/
theorem C2_retry_exhaustion (resolve : Track → Option String) (now : Nat) (s : Session)
    (v : VoiceClient) (hvc : s.vc = some v) (hres : ∀ t, resolve t = none)
    (hpre : MusicPlayer.truthy (s.preloaded.getD none) = false)
    (hr : s.retry_count = 0) (hlen : 4 ≤ s.queue.queue.length) :
    (MusicPlayer.play_next resolve now s).queue.queue.length
        = s.queue.queue.length - 4 ∧
    (MusicPlayer.play_next resolve now s).events =
      s.events ++ [MusicEvent.error "Не удалось воспроизвести трек"] ∧
    (MusicPlayer.play_next resolve now s).retry_count = 0 ∧
    (MusicPlayer.play_next resolve now s).vc = s.vc ∧
    (MusicPlayer.play_next resolve now s).state.is_playing = s.state.is_playing := by
  have h := play_next_go_drain resolve now hres s.queue.queue.length s v hvc hpre
    (by omega) (by omega) rfl
  rw [hr] at h
  simpa only [MusicPlayer.play_next] using h

/-- A connected session holding five queued tracks and no preload. -/
def drainSession : Session :=
  { state := GuildMusicState.fresh 1 0,
    queue := mkQueue [trackA, trackB, trackC, trackA, trackB],
    vc := some { channel_id := 7 } }

/-- C2 witness: on the five-track session with an always-failing resolver,
the transition consumes four items, leaves one, fires exactly one error
event, and touches neither the transport nor the playing flag. -/
theorem C2_retry_exhaustion_witness :
    (MusicPlayer.play_next failingResolve 0 drainSession).queue.queue.length
        = drainSession.queue.queue.length - 4 ∧
    (MusicPlayer.play_next failingResolve 0 drainSession).events =
      drainSession.events ++ [MusicEvent.error "Не удалось воспроизвести трек"] ∧
    (MusicPlayer.play_next failingResolve 0 drainSession).retry_count = 0 ∧
    (MusicPlayer.play_next failingResolve 0 drainSession).vc = drainSession.vc ∧
    (MusicPlayer.play_next failingResolve 0 drainSession).state.is_playing
        = drainSession.state.is_playing :=
  C2_retry_exhaustion failingResolve 0 drainSession { channel_id := 7 } rfl
    (fun _ => rfl) rfl rfl (by decide)


/-! ### C1: track-completion loop handling -/

theorem preload_next_parts (resolve : Track → Option String) (s : Session) :
    (MusicPlayer.preload_next resolve s).queue = s.queue ∧
    (MusicPlayer.preload_next resolve s).events = s.events ∧
    (MusicPlayer.preload_next resolve s).state = s.state ∧
    (MusicPlayer.preload_next resolve s).vc = s.vc := by
  unfold MusicPlayer.preload_next
  cases s.queue.peek_next <;> exact ⟨rfl, rfl, rfl, rfl⟩

/-- The effect of a `_play_next` call whose head item's stream URL is
obtainable (from the preload slot or the resolver): the head is popped,
becomes `current`, playback starts and the track-start event fires. -/
theorem play_next_success (resolve : Track → Option String) (now : Nat) (s : Session)
    (v : VoiceClient) (item : QueueItem) (rest : List QueueItem)
    (hvc : s.vc = some v) (hq : s.queue.queue = item :: rest)
    (hurl : (if MusicPlayer.truthy (s.preloaded.getD none) = true
        then s.preloaded.getD none else resolve item.track).isSome = true) :
    MusicPlayer.play_next resolve now s =
      MusicPlayer.preload_next resolve
        { s with
          queue := (TrackQueue.update_positions
              { s.queue with queue := rest }).set_current (some item),
          state :=
            { s.state with
              current_track := some item,
              is_playing := true,
              is_paused := false,
              last_activity := now },
          retry_count := 0,
          vc := some { v with playing := true, paused := false },
          events := s.events ++ [MusicEvent.trackStart item] } := by
  rw [MusicPlayer.play_next]
  conv_lhs => rw [MusicPlayer.play_next_go]
  simp only [hvc, hq]
  cases hu : (if MusicPlayer.truthy (s.preloaded.getD none) = true
      then s.preloaded.getD none else resolve item.track) with
  | none => rw [hu] at hurl; simp at hurl
  | some w =>
    simp only [hu]

/-- C1: on a track-finished notification with a current item set: in TRACK
loop mode (and a resolvable stream URL) the very same current item is played
again — the track-start event carries `cur` itself — and the queue list
(hence `size()`) is untouched; in QUEUE loop mode a new QueueItem carrying
the same Track, requester id and requester name is appended at the queue tail
before the head is popped and played: the started item is the old head, the
queue size is back to its pre-notification value, and the remaining queue is
the old tail followed by the copy of `cur`. -/
theorem C1_loop_completion (resolve : Track → Option String) (now : Nat) (s : Session)
    (v : VoiceClient) (cur : QueueItem) (hvc : s.vc = some v)
    (hcur : s.state.current_track = some cur) :
    (s.state.loop_mode = LoopMode.TRACK → ∀ u, resolve cur.track = some u →
      (MusicPlayer.on_track_finished resolve now s).queue.queue = s.queue.queue ∧
      (MusicPlayer.on_track_finished resolve now s).events =
        s.events ++ [MusicEvent.trackEnd cur, MusicEvent.trackStart cur]) ∧
    (s.state.loop_mode = LoopMode.QUEUE → ∀ item rest, s.queue.queue = item :: rest →
      ∀ u, resolve item.track = some u →
      ((MusicPlayer.on_track_finished resolve now s).queue.queue.map
          fun it => (it.track, it.requester_id, it.requester_name)) =
        (rest.map fun it => (it.track, it.requester_id, it.requester_name)) ++
          [(cur.track, cur.requester_id, cur.requester_name)] ∧
      (MusicPlayer.on_track_finished resolve now s).queue.queue.length
          = s.queue.queue.length ∧
      ∃ p, (MusicPlayer.on_track_finished resolve now s).events =
        s.events ++ [MusicEvent.trackEnd cur,
          MusicEvent.trackStart { item with position := p }]) := by
  constructor
  · intro hloop u hresu
    have hstep : MusicPlayer.on_track_finished resolve now s =
        MusicPlayer.play_track resolve
          { s with events := s.events ++ [MusicEvent.trackEnd cur] } cur now := by
      simp only [MusicPlayer.on_track_finished, hcur, hloop]
    have htrack : MusicPlayer.play_track resolve
        { s with events := s.events ++ [MusicEvent.trackEnd cur] } cur now =
        MusicPlayer.preload_next resolve
          { s with
            queue := s.queue.set_current (some cur),
            state :=
              { s.state with
                current_track := some cur,
                is_playing := true,
                is_paused := false,
                last_activity := now },
            vc := some { v with playing := true, paused := false },
            events := s.events ++ [MusicEvent.trackEnd cur, MusicEvent.trackStart cur] } := by
      simp only [MusicPlayer.play_track, hvc, hresu]
      simp
    rw [hstep, htrack]
    rcases preload_next_parts resolve _ with ⟨hpq, hpe, _, _⟩
    rw [hpq, hpe]
    exact ⟨rfl, rfl⟩
  · intro hloop item rest hq u hresu
    have hstep : MusicPlayer.on_track_finished resolve now s =
        MusicPlayer.play_next resolve now
          { s with
            events := s.events ++ [MusicEvent.trackEnd cur],
            queue := TrackQueue.update_positions
              { s.queue with queue := s.queue.queue ++
                  [{ track := cur.track, requester_id := cur.requester_id,
                     requester_name := cur.requester_name, added_at := now,
                     position := s.queue.queue.length + 2 }] } } := by
      simp only [MusicPlayer.on_track_finished, hcur, hloop]
    have hqS2 : (TrackQueue.update_positions
        { s.queue with queue := s.queue.queue ++
            [{ track := cur.track, requester_id := cur.requester_id,
               requester_name := cur.requester_name, added_at := now,
               position := s.queue.queue.length + 2 }] }).queue =
        { item with position := if s.queue.current.isSome then 2 else 1 } ::
          TrackQueue.renumber ((if s.queue.current.isSome then 2 else 1) + 1)
            (rest ++
              [{ track := cur.track, requester_id := cur.requester_id,
                 requester_name := cur.requester_name, added_at := now,
                 position := s.queue.queue.length + 2 }]) := by
      conv_lhs => rw [TrackQueue.update_positions]
      rw [hq]
      simp only [List.cons_append, TrackQueue.renumber]
      rfl
    have hurl2 : (if MusicPlayer.truthy (s.preloaded.getD none) = true
        then s.preloaded.getD none
        else resolve ({ item with
          position := if s.queue.current.isSome then 2 else 1 } : QueueItem).track).isSome
        = true := by
      by_cases ht : MusicPlayer.truthy (s.preloaded.getD none) = true
      · rw [if_pos ht]
        cases hx : s.preloaded.getD none with
        | none => rw [hx] at ht; simp [MusicPlayer.truthy] at ht
        | some w => simp
      · rw [if_neg ht]
        have : ({ item with
            position := if s.queue.current.isSome then 2 else 1 } : QueueItem).track
            = item.track := rfl
        rw [this, hresu]
        rfl
    have hgo := play_next_success resolve now
      { s with
        events := s.events ++ [MusicEvent.trackEnd cur],
        queue := TrackQueue.update_positions
          { s.queue with queue := s.queue.queue ++
              [{ track := cur.track, requester_id := cur.requester_id,
                 requester_name := cur.requester_name, added_at := now,
                 position := s.queue.queue.length + 2 }] } }
      v { item with position := if s.queue.current.isSome then 2 else 1 }
      (TrackQueue.renumber ((if s.queue.current.isSome then 2 else 1) + 1)
        (rest ++
          [{ track := cur.track, requester_id := cur.requester_id,
             requester_name := cur.requester_name, added_at := now,
             position := s.queue.queue.length + 2 }]))
      hvc hqS2 hurl2
    rw [hstep, hgo]
    rcases preload_next_parts resolve _ with ⟨hpq, hpe, _, _⟩
    rw [hpq, hpe]
    refine ⟨?_, ?_, ?_⟩
    · show ((TrackQueue.update_positions _).set_current _).queue.map _ = _
      rw [TrackQueue.set_current]
      conv_lhs => rw [TrackQueue.update_positions]
      simp only [TrackQueue.renumber_map_requester, List.map_append]
      simp
    · show ((TrackQueue.update_positions _).set_current _).queue.length = _
      rw [TrackQueue.set_current]
      conv_lhs => rw [TrackQueue.update_positions]
      simp only [TrackQueue.renumber_length, List.length_append, List.length_cons, hq]
      simp
    · exact ⟨(if s.queue.current.isSome then 2 else 1), by simp⟩

/-- The queue item created by adding `trackB` to an empty default queue. -/
def itemB : QueueItem :=
  { track := trackB, requester_id := 1, requester_name := "u", added_at := 0, position := 1 }

/-- A connected session finishing `itemA` in TRACK loop mode with `trackB` queued. -/
def loopTrackSession : Session :=
  { state := { guild_id := 1, current_track := some itemA, is_playing := true,
               loop_mode := LoopMode.TRACK },
    queue := mkQueue [trackB],
    vc := some { channel_id := 7, playing := true } }

/-- The same session in QUEUE loop mode. -/
def loopQueueSession : Session :=
  { loopTrackSession with
    state := { loopTrackSession.state with loop_mode := LoopMode.QUEUE } }

/-- C1 witness: finishing `itemA` in TRACK mode replays `itemA` with the
queue list untouched; finishing it in QUEUE mode starts the old head `itemB`
(at some recomputed position) right after the copy of `itemA` was appended. -/
theorem C1_loop_completion_witness :
    ((MusicPlayer.on_track_finished okResolve 0 loopTrackSession).queue.queue =
        loopTrackSession.queue.queue ∧
      (MusicPlayer.on_track_finished okResolve 0 loopTrackSession).events =
        loopTrackSession.events ++
          [MusicEvent.trackEnd itemA, MusicEvent.trackStart itemA]) ∧
    ((MusicPlayer.on_track_finished okResolve 0 loopQueueSession).queue.queue.map
        fun it => (it.track, it.requester_id, it.requester_name)) =
      (([] : List QueueItem).map fun it => (it.track, it.requester_id, it.requester_name)) ++
        [(itemA.track, itemA.requester_id, itemA.requester_name)] ∧
    (∃ p, (MusicPlayer.on_track_finished okResolve 0 loopQueueSession).events =
      loopQueueSession.events ++ [MusicEvent.trackEnd itemA,
        MusicEvent.trackStart { itemB with position := p }]) := by
  refine ⟨?_, ?_, ?_⟩
  · exact (C1_loop_completion okResolve 0 loopTrackSession
      { channel_id := 7, playing := true } itemA rfl rfl).1 rfl "stream" rfl
  · exact (((C1_loop_completion okResolve 0 loopQueueSession
      { channel_id := 7, playing := true } itemA rfl rfl).2 rfl itemB [] rfl
      "stream" rfl)).1
  · exact (((C1_loop_completion okResolve 0 loopQueueSession
      { channel_id := 7, playing := true } itemA rfl rfl).2 rfl itemB [] rfl
      "stream" rfl)).2.2

/-! ### C9: the isPaused-implies-isPlaying invariant -/

/-- One step of the per-session state machine: each core operation named by
the invariant, plus the transport's track-finished notification; the source
transport stops the audio player (clearing its playing flag) before the
`after` callback delivers the notification, and a notification only arises
from audio that was actively playing. -/
inductive Step (resolve : Track → Option String) : Session → Session → Prop
  | connect (s : Session) (ch rid : Nat) (ok : Bool) (now : Nat) :
      Step resolve s (MusicPlayer.connect s ch rid ok now).2
  | disconnect (s : Session) (now : Nat) :
      Step resolve s (MusicPlayer.disconnect s now)
  | play (s : Session) (t : Track) (rid : Nat) (rname : String) (now : Nat) :
      Step resolve s (MusicPlayer.play resolve now s t rid rname).2
  | pause (s : Session) (now : Nat) :
      Step resolve s (MusicPlayer.pause s now).2
  | resume (s : Session) (now : Nat) :
      Step resolve s (MusicPlayer.resume s now).2
  | skip (s : Session) (now : Nat) :
      Step resolve s (MusicPlayer.skip resolve now s).2
  | stop (s : Session) (now : Nat) :
      Step resolve s (MusicPlayer.stop s now)
  | finished (s : Session) (v : VoiceClient) (now : Nat) (hvc : s.vc = some v)
      (hp : v.is_playing = true) :
      Step resolve s (MusicPlayer.on_track_finished resolve now
        { s with vc := some { v with playing := false } })

/-- Sessions reachable from the freshly created session of a guild id. -/
def Reachable (resolve : Track → Option String) (gid : Nat) (s : Session) : Prop :=
  Relation.ReflTransGen (Step resolve) (Session.init gid) s

/-- The inductive invariant: paused entails playing, a playing transport
entails the playing flag, and a paused state has a live paused transport. -/
def PauseInv (s : Session) : Prop :=
  (s.state.is_paused = true → s.state.is_playing = true) ∧
  (∀ v, s.vc = some v → v.playing = true → s.state.is_playing = true) ∧
  (s.state.is_paused = true →
    ∃ v, s.vc = some v ∧ v.playing = true ∧ v.paused = true)

theorem pause_inv_of_parts {a b : Session} (h : PauseInv a)
    (hp1 : b.state.is_paused = a.state.is_paused)
    (hp2 : b.state.is_playing = a.state.is_playing)
    (hvc : b.vc = a.vc) : PauseInv b := by
  obtain ⟨c1, c2, c3⟩ := h
  refine ⟨?_, ?_, ?_⟩
  · intro h
    rw [hp1] at h
    rw [hp2]
    exact c1 h
  · intro v hv hplay
    rw [hvc] at hv
    rw [hp2]
    exact c2 v hv hplay
  · intro h
    rw [hp1] at h
    rw [hvc]
    exact c3 h

theorem pause_inv_preload (resolve : Track → Option String) {s : Session}
    (h : PauseInv s) : PauseInv (MusicPlayer.preload_next resolve s) := by
  rcases preload_next_parts resolve s with ⟨_, _, hst, hvc⟩
  exact pause_inv_of_parts h (by rw [hst]) (by rw [hst]) hvc

/-- An idle-transport session (paused flag down, no playing audio) lands in
an invariant-satisfying state after `_play_track`. -/
theorem pause_inv_play_track (resolve : Track → Option String) (s : Session)
    (item : QueueItem) (now : Nat) (h1 : s.state.is_paused = false)
    (h2 : ∀ v, s.vc = some v → v.playing = false) :
    PauseInv (MusicPlayer.play_track resolve s item now) := by
  cases hvc : s.vc with
  | none =>
    have he : MusicPlayer.play_track resolve s item now =
        { s with state := { s.state with is_playing := false } } := by
      rw [MusicPlayer.play_track, hvc]
    rw [he]
    refine ⟨?_, ?_, ?_⟩
    · intro h
      have h' : s.state.is_paused = true := h
      rw [h1] at h'
      cases h'
    · intro v hv _
      have hv' : s.vc = some v := hv
      rw [hvc] at hv'
      cases hv'
    · intro h
      have h' : s.state.is_paused = true := h
      rw [h1] at h'
      cases h'
  | some v =>
    cases hres : resolve item.track with
    | none =>
      have he : MusicPlayer.play_track resolve s item now =
          { s with
            queue := s.queue.set_current (some item),
            state := { s.state with current_track := some item },
            events := s.events ++
              [MusicEvent.error "Не удалось воспроизвести трек"] } := by
        rw [MusicPlayer.play_track, hvc]
        rw [hres]
      rw [he]
      refine ⟨?_, ?_, ?_⟩
      · intro h
        have h' : s.state.is_paused = true := h
        rw [h1] at h'
        cases h'
      · intro v2 hv2 hplay
        have hv2' : s.vc = some v2 := hv2
        rw [hvc] at hv2'
        injection hv2' with he2
        rw [← he2] at hplay
        rw [h2 v hvc] at hplay
        cases hplay
      · intro h
        have h' : s.state.is_paused = true := h
        rw [h1] at h'
        cases h'
    | some u =>
      have he : MusicPlayer.play_track resolve s item now =
          MusicPlayer.preload_next resolve
            { s with
              queue := s.queue.set_current (some item),
              state :=
                { s.state with
                  current_track := some item,
                  is_playing := true,
                  is_paused := false,
                  last_activity := now },
              vc := some { v with playing := true, paused := false },
              events := s.events ++ [MusicEvent.trackStart item] } := by
        rw [MusicPlayer.play_track, hvc]
        rw [hres]
      rw [he]
      apply pause_inv_preload
      refine ⟨fun _ => rfl, fun v2 hv2 hplay => rfl, ?_⟩
      intro h
      have h' : (false : Bool) = true := h
      cases h'

theorem pause_inv_flagdown (s : Session) (b : Session)
    (hp1 : b.state.is_paused = s.state.is_paused)
    (hvc : b.vc = s.vc)
    (h1 : s.state.is_paused = false)
    (h2 : ∀ v, s.vc = some v → v.playing = false) : PauseInv b := by
  refine ⟨?_, ?_, ?_⟩
  · intro h
    rw [hp1, h1] at h
    cases h
  · intro v hv hplay
    rw [hvc] at hv
    rw [h2 v hv] at hplay
    cases hplay
  · intro h
    rw [hp1, h1] at h
    cases h

/-- The success step of `play_next_go` at any fuel value. -/
theorem play_next_go_success (resolve : Track → Option String) (now : Nat) (n : Nat)
    (s : Session) (v : VoiceClient) (item : QueueItem) (rest : List QueueItem)
    (hvc : s.vc = some v) (hq : s.queue.queue = item :: rest)
    (hurl : (if MusicPlayer.truthy (s.preloaded.getD none) = true
        then s.preloaded.getD none else resolve item.track).isSome = true) :
    MusicPlayer.play_next_go resolve now n s =
      MusicPlayer.preload_next resolve
        { s with
          queue := (TrackQueue.update_positions
              { s.queue with queue := rest }).set_current (some item),
          state :=
            { s.state with
              current_track := some item,
              is_playing := true,
              is_paused := false,
              last_activity := now },
          retry_count := 0,
          vc := some { v with playing := true, paused := false },
          events := s.events ++ [MusicEvent.trackStart item] } := by
  conv_lhs => rw [MusicPlayer.play_next_go]
  simp only [hvc, hq]
  cases hu : (if MusicPlayer.truthy (s.preloaded.getD none) = true
      then s.preloaded.getD none else resolve item.track) with
  | none => rw [hu] at hurl; simp at hurl
  | some w => simp only [hu]

theorem pause_inv_play_next_go (resolve : Track → Option String) (now : Nat) :
    ∀ (n : Nat) (s : Session), s.state.is_paused = false →
      (∀ v, s.vc = some v → v.playing = false) →
      PauseInv (MusicPlayer.play_next_go resolve now n s) := by
  intro n
  induction n with
  | zero =>
    intro s h1 h2
    cases hvc : s.vc with
    | none =>
      have he : MusicPlayer.play_next_go resolve now 0 s =
          { s with state := { s.state with is_playing := false } } := by
        conv_lhs => rw [MusicPlayer.play_next_go]
        rw [hvc]
      rw [he]
      exact pause_inv_flagdown s _ rfl rfl h1 h2
    | some v =>
      cases hq : s.queue.queue with
      | nil =>
        have he : MusicPlayer.play_next_go resolve now 0 s =
            { s with
              queue := s.queue.set_current none,
              state := { s.state with is_playing := false, current_track := none },
              events := s.events ++ [MusicEvent.queueEmpty] } := by
          conv_lhs => rw [MusicPlayer.play_next_go]
          rw [hvc]
          simp only [hq]
        rw [he]
        exact pause_inv_flagdown s _ rfl rfl h1 h2
      | cons item rest =>
        cases hu : (if MusicPlayer.truthy (s.preloaded.getD none) = true
            then s.preloaded.getD none else resolve item.track) with
        | some w =>
          rw [play_next_go_success resolve now 0 s v item rest hvc hq (by rw [hu]; rfl)]
          apply pause_inv_preload
          refine ⟨fun _ => rfl, fun v2 hv2 hplay => rfl, ?_⟩
          intro h
          have h' : (false : Bool) = true := h
          cases h'
        | none =>
          by_cases hr : s.retry_count < 3
          · have he : MusicPlayer.play_next_go resolve now 0 s =
                { s with
                  queue := (TrackQueue.update_positions
                      { s.queue with queue := rest }).set_current (some item),
                  state := { s.state with current_track := some item },
                  retry_count := s.retry_count + 1 } := by
              conv_lhs => rw [MusicPlayer.play_next_go]
              simp only [hvc, hq]
              simp only [hu, if_pos hr]
            rw [he]
            exact pause_inv_flagdown s _ rfl rfl h1 h2
          · have he : MusicPlayer.play_next_go resolve now 0 s =
                { s with
                  queue := (TrackQueue.update_positions
                      { s.queue with queue := rest }).set_current (some item),
                  state := { s.state with current_track := some item },
                  retry_count := 0,
                  events := s.events ++
                    [MusicEvent.error "Не удалось воспроизвести трек"] } := by
              conv_lhs => rw [MusicPlayer.play_next_go]
              simp only [hvc, hq]
              simp only [hu, if_neg hr]
            rw [he]
            exact pause_inv_flagdown s _ rfl rfl h1 h2
  | succ m ih =>
    intro s h1 h2
    cases hvc : s.vc with
    | none =>
      have he : MusicPlayer.play_next_go resolve now (m + 1) s =
          { s with state := { s.state with is_playing := false } } := by
        conv_lhs => rw [MusicPlayer.play_next_go]
        rw [hvc]
      rw [he]
      exact pause_inv_flagdown s _ rfl rfl h1 h2
    | some v =>
      cases hq : s.queue.queue with
      | nil =>
        have he : MusicPlayer.play_next_go resolve now (m + 1) s =
            { s with
              queue := s.queue.set_current none,
              state := { s.state with is_playing := false, current_track := none },
              events := s.events ++ [MusicEvent.queueEmpty] } := by
          conv_lhs => rw [MusicPlayer.play_next_go]
          rw [hvc]
          simp only [hq]
        rw [he]
        exact pause_inv_flagdown s _ rfl rfl h1 h2
      | cons item rest =>
        cases hu : (if MusicPlayer.truthy (s.preloaded.getD none) = true
            then s.preloaded.getD none else resolve item.track) with
        | some w =>
          rw [play_next_go_success resolve now (m + 1) s v item rest hvc hq (by rw [hu]; rfl)]
          apply pause_inv_preload
          refine ⟨fun _ => rfl, fun v2 hv2 hplay => rfl, ?_⟩
          intro h
          have h' : (false : Bool) = true := h
          cases h'
        | none =>
          by_cases hr : s.retry_count < 3
          · have he : MusicPlayer.play_next_go resolve now (m + 1) s =
                MusicPlayer.play_next_go resolve now m
                  { s with
                    queue := (TrackQueue.update_positions
                        { s.queue with queue := rest }).set_current (some item),
                    state := { s.state with current_track := some item },
                    retry_count := s.retry_count + 1 } := by
              conv_lhs => rw [MusicPlayer.play_next_go]
              simp only [hvc, hq]
              simp only [hu, if_pos hr]
            rw [he]
            exact ih _ h1 h2
          · have he : MusicPlayer.play_next_go resolve now (m + 1) s =
                { s with
                  queue := (TrackQueue.update_positions
                      { s.queue with queue := rest }).set_current (some item),
                  state := { s.state with current_track := some item },
                  retry_count := 0,
                  events := s.events ++
                    [MusicEvent.error "Не удалось воспроизвести трек"] } := by
              conv_lhs => rw [MusicPlayer.play_next_go]
              simp only [hvc, hq]
              simp only [hu, if_neg hr]
            rw [he]
            exact pause_inv_flagdown s _ rfl rfl h1 h2

theorem pause_inv_play_next (resolve : Track → Option String) (now : Nat) (s : Session)
    (h1 : s.state.is_paused = false)
    (h2 : ∀ v, s.vc = some v → v.playing = false) :
    PauseInv (MusicPlayer.play_next resolve now s) := by
  rw [MusicPlayer.play_next]
  exact pause_inv_play_next_go resolve now _ s h1 h2

theorem pause_inv_on_track_finished (resolve : Track → Option String) (now : Nat)
    (s : Session) (h1 : s.state.is_paused = false)
    (h2 : ∀ v, s.vc = some v → v.playing = false) :
    PauseInv (MusicPlayer.on_track_finished resolve now s) := by
  cases hcur : s.state.current_track with
  | none =>
    cases hlm : s.state.loop_mode with
    | NONE =>
      simp only [MusicPlayer.on_track_finished, hcur, hlm]
      exact pause_inv_play_next resolve now s h1 h2
    | TRACK =>
      simp only [MusicPlayer.on_track_finished, hcur, hlm]
      exact pause_inv_play_next resolve now s h1 h2
    | QUEUE =>
      simp only [MusicPlayer.on_track_finished, hcur, hlm]
      exact pause_inv_play_next resolve now s h1 h2
  | some cur =>
    cases hlm : s.state.loop_mode with
    | NONE =>
      simp only [MusicPlayer.on_track_finished, hcur, hlm]
      exact pause_inv_play_next resolve now _ h1 h2
    | TRACK =>
      simp only [MusicPlayer.on_track_finished, hcur, hlm]
      exact pause_inv_play_track resolve _ cur now h1 h2
    | QUEUE =>
      simp only [MusicPlayer.on_track_finished, hcur, hlm]
      exact pause_inv_play_next resolve now _ h1 h2

theorem voice_is_playing_spec {v : VoiceClient} (h : v.is_playing = true) :
    v.playing = true ∧ v.paused = false := by
  simp only [VoiceClient.is_playing, Bool.and_eq_true, Bool.not_eq_true'] at h
  exact h

theorem voice_is_paused_spec {v : VoiceClient} (h : v.is_paused = true) :
    v.playing = true ∧ v.paused = true := by
  simp only [VoiceClient.is_paused, Bool.and_eq_true] at h
  exact h

theorem pause_inv_step (resolve : Track → Option String) {s b : Session}
    (hinv : PauseInv s) (hstep : Step resolve s b) : PauseInv b := by
  obtain ⟨c1, c2, c3⟩ := hinv
  cases hstep with
  | connect ch rid ok now =>
    cases hvc : s.vc with
    | some v =>
      by_cases hch : v.channel_id = ch
      · have he : (MusicPlayer.connect s ch rid ok now).2 = s := by
          rw [MusicPlayer.connect, hvc]
          simp [hch]
        rw [he]
        exact ⟨c1, c2, c3⟩
      · have he : (MusicPlayer.connect s ch rid ok now).2 =
            { s with vc := some { v with channel_id := ch } } := by
          rw [MusicPlayer.connect, hvc]
          simp [hch]
        rw [he]
        refine ⟨c1, ?_, ?_⟩
        · intro v2 hv2 hplay
          have hv2' : some { v with channel_id := ch } = some v2 := hv2
          injection hv2' with he2
          rw [← he2] at hplay
          exact c2 v hvc hplay
        · intro h
          obtain ⟨v0, hv0, hpl, hpa⟩ := c3 h
          rw [hvc] at hv0
          injection hv0 with he0
          refine ⟨{ v with channel_id := ch }, rfl, ?_, ?_⟩
          · rw [← he0] at hpl
            exact hpl
          · rw [← he0] at hpa
            exact hpa
    | none =>
      cases ok with
      | false =>
        have he : (MusicPlayer.connect s ch rid false now).2 = s := by
          rw [MusicPlayer.connect, hvc]
          simp
        rw [he]
        exact ⟨c1, c2, c3⟩
      | true =>
        have he : (MusicPlayer.connect s ch rid true now).2 =
            { s with
              vc := some { channel_id := ch },
              state :=
                { s.state with
                  channel_owner_id := some rid, last_activity := now } } := by
          rw [MusicPlayer.connect, hvc]
          simp
        rw [he]
        refine ⟨c1, ?_, ?_⟩
        · intro v2 hv2 hplay
          have hv2' : some ({ channel_id := ch } : VoiceClient) = some v2 := hv2
          injection hv2' with he2
          rw [← he2] at hplay
          cases hplay
        · intro h
          obtain ⟨v0, hv0, _, _⟩ := c3 h
          rw [hvc] at hv0
          cases hv0
  | disconnect now =>
    refine ⟨?_, ?_, ?_⟩
    · intro h
      have h' : (false : Bool) = true := h
      cases h'
    · intro v hv _
      have hv' : (none : Option VoiceClient) = some v := hv
      cases hv'
    · intro h
      have h' : (false : Bool) = true := h
      cases h'
  | stop now =>
    refine ⟨?_, ?_, ?_⟩
    · intro h
      have h' : (false : Bool) = true := h
      cases h'
    · intro v hv _
      have hv' : (none : Option VoiceClient) = some v := hv
      cases hv'
    · intro h
      have h' : (false : Bool) = true := h
      cases h'
  | play t rid rname now =>
    cases hadd : (s.queue.add t rid rname now).1 with
    | none =>
      have he : (MusicPlayer.play resolve now s t rid rname).2 =
          { s with queue := (s.queue.add t rid rname now).2 } := by
        rw [MusicPlayer.play]
        simp only [hadd]
      rw [he]
      exact pause_inv_of_parts ⟨c1, c2, c3⟩ rfl rfl rfl
    | some item =>
      by_cases hpl : s.state.is_playing = false
      · have he : (MusicPlayer.play resolve now s t rid rname).2 =
            { MusicPlayer.play_next resolve now
                { s with queue := (s.queue.add t rid rname now).2 } with
              state :=
                { (MusicPlayer.play_next resolve now
                    { s with queue := (s.queue.add t rid rname now).2 }).state with
                  last_activity := now } } := by
          rw [MusicPlayer.play]
          simp only [hadd, hpl]
          simp
        rw [he]
        have h1 : s.state.is_paused = false := by
          cases hpa : s.state.is_paused with
          | false => rfl
          | true => rw [c1 hpa] at hpl; cases hpl
        have h2 : ∀ v, s.vc = some v → v.playing = false := by
          intro v hv
          cases hpv : v.playing with
          | false => rfl
          | true => rw [c2 v hv hpv] at hpl; cases hpl
        exact pause_inv_of_parts
          (pause_inv_play_next resolve now
            { s with queue := (s.queue.add t rid rname now).2 } h1 h2) rfl rfl rfl
      · have he : (MusicPlayer.play resolve now s t rid rname).2 =
            { MusicPlayer.preload_next resolve
                { s with queue := (s.queue.add t rid rname now).2 } with
              state :=
                { (MusicPlayer.preload_next resolve
                    { s with queue := (s.queue.add t rid rname now).2 }).state with
                  last_activity := now } } := by
          rw [MusicPlayer.play]
          simp only [hadd, hpl]
          simp
        rw [he]
        exact pause_inv_of_parts
          (pause_inv_preload resolve
            ((pause_inv_of_parts ⟨c1, c2, c3⟩ rfl rfl rfl) :
              PauseInv ({ s with
                queue := (s.queue.add t rid rname now).2 } : Session))) rfl rfl rfl
  | pause now =>
    cases hvc : s.vc with
    | none =>
      have he : (MusicPlayer.pause s now).2 = s := by
        rw [MusicPlayer.pause, hvc]
      rw [he]
      exact ⟨c1, c2, c3⟩
    | some v =>
      by_cases hp : v.is_playing = true
      · obtain ⟨hpl, hpa⟩ := voice_is_playing_spec hp
        have he : (MusicPlayer.pause s now).2 =
            { s with
              vc := some { v with paused := true },
              state := { s.state with is_paused := true, last_activity := now } } := by
          rw [MusicPlayer.pause, hvc]
          simp [hp]
        rw [he]
        have hplaying : s.state.is_playing = true := c2 v hvc hpl
        refine ⟨fun _ => hplaying, fun v2 hv2 _ => hplaying, ?_⟩
        intro _
        exact ⟨{ v with paused := true }, rfl, hpl, rfl⟩
      · have he : (MusicPlayer.pause s now).2 = s := by
          rw [MusicPlayer.pause, hvc]
          simp [hp]
        rw [he]
        exact ⟨c1, c2, c3⟩
  | resume now =>
    cases hvc : s.vc with
    | none =>
      have he : (MusicPlayer.resume s now).2 = s := by
        rw [MusicPlayer.resume, hvc]
      rw [he]
      exact ⟨c1, c2, c3⟩
    | some v =>
      by_cases hp : v.is_paused = true
      · obtain ⟨hpl, _⟩ := voice_is_paused_spec hp
        have he : (MusicPlayer.resume s now).2 =
            { s with
              vc := some { v with paused := false },
              state := { s.state with is_paused := false, last_activity := now } } := by
          rw [MusicPlayer.resume, hvc]
          simp [hp]
        rw [he]
        refine ⟨?_, ?_, ?_⟩
        · intro h
          have h' : (false : Bool) = true := h
          cases h'
        · intro v2 hv2 _
          exact c2 v hvc hpl
        · intro h
          have h' : (false : Bool) = true := h
          cases h'
      · have he : (MusicPlayer.resume s now).2 = s := by
          rw [MusicPlayer.resume, hvc]
          simp [hp]
        rw [he]
        exact ⟨c1, c2, c3⟩
  | skip now =>
    cases hvc : s.vc with
    | none =>
      have he : (MusicPlayer.skip resolve now s).2 = s := by
        rw [MusicPlayer.skip, hvc]
      rw [he]
      exact ⟨c1, c2, c3⟩
    | some v =>
      by_cases hp : v.is_playing = true
      · obtain ⟨hpl, hpa⟩ := voice_is_playing_spec hp
        have he : (MusicPlayer.skip resolve now s).2 =
            MusicPlayer.on_track_finished resolve now
              { s with
                vc := some { v with playing := false },
                state := { s.state with last_activity := now } } := by
          rw [MusicPlayer.skip, hvc]
          simp [hp]
        rw [he]
        apply pause_inv_on_track_finished
        · show s.state.is_paused = false
          cases hs : s.state.is_paused with
          | false => rfl
          | true =>
            obtain ⟨v0, hv0, _, hpau⟩ := c3 hs
            rw [hvc] at hv0
            injection hv0 with he0
            rw [← he0] at hpau
            rw [hpa] at hpau
            cases hpau
        · intro v2 hv2
          have hv2' : some { v with playing := false } = some v2 := hv2
          injection hv2' with he2
          rw [← he2]
      · have he : (MusicPlayer.skip resolve now s).2 =
            { s with state := { s.state with last_activity := now } } := by
          rw [MusicPlayer.skip, hvc]
          simp [hp, hvc]
        rw [he]
        exact pause_inv_of_parts ⟨c1, c2, c3⟩ rfl rfl rfl
  | finished v now hvc hp =>
    obtain ⟨hpl, hpa⟩ := voice_is_playing_spec hp
    apply pause_inv_on_track_finished
    · show s.state.is_paused = false
      cases hs : s.state.is_paused with
      | false => rfl
      | true =>
        obtain ⟨v0, hv0, _, hpau⟩ := c3 hs
        rw [hvc] at hv0
        injection hv0 with he0
        rw [← he0] at hpau
        rw [hpa] at hpau
        cases hpau
    · intro v2 hv2
      have hv2' : some { v with playing := false } = some v2 := hv2
      injection hv2' with he2
      rw [← he2]

/-- C9: on every session state reachable from a fresh session by any sequence
of core operations (connect, disconnect, play, pause, resume, skip, stop,
track-completion handling), `isPaused = true` implies `isPlaying = true`. -/
theorem C9_pause_implies_playing (resolve : Track → Option String) (gid : Nat)
    (s : Session) (hreach : Reachable resolve gid s)
    (hp : s.state.is_paused = true) : s.state.is_playing = true := by
  have hinv : PauseInv s := by
    clear hp
    induction hreach with
    | refl =>
      refine ⟨?_, ?_, ?_⟩
      · intro h
        have h' : (false : Bool) = true := h
        cases h'
      · intro v hv _
        have hv' : (none : Option VoiceClient) = some v := hv
        cases hv'
      · intro h
        have h' : (false : Bool) = true := h
        cases h'
    | tail _ hbc ih => exact pause_inv_step resolve ih hbc
  exact hinv.1 hp

/-- A session after connect, a successful play and a pause: it is reachable
and paused. -/
def pausedSession : Session :=
  (MusicPlayer.pause
    (MusicPlayer.play okResolve 0
      (MusicPlayer.connect (Session.init 0) 5 1 true 0).2 trackA 1 "u").2 0).2

/-- C9 witness: the concrete connect-play-pause session is reachable, paused,
and the invariant instance concludes it is playing. -/
theorem C9_pause_implies_playing_witness : pausedSession.state.is_playing = true := by
  have hreach : Reachable okResolve 0 pausedSession :=
    Relation.ReflTransGen.tail
      (Relation.ReflTransGen.tail
        (Relation.ReflTransGen.tail Relation.ReflTransGen.refl
          (Step.connect (Session.init 0) 5 1 true 0))
        (Step.play (MusicPlayer.connect (Session.init 0) 5 1 true 0).2 trackA 1 "u" 0))
      (Step.pause
        (MusicPlayer.play okResolve 0
          (MusicPlayer.connect (Session.init 0) 5 1 true 0).2 trackA 1 "u").2 0)
  exact C9_pause_implies_playing okResolve 0 pausedSession hreach (by decide)
